import Mathlib

/-!
Shallow embedding of the healthbook_backend YouTube aggregation pipeline
(`src/youtube.ts` and the `/api/youtube/videos` handler of `src/index.ts`).

JavaScript numbers that hold integer millisecond timestamps, durations and
second counts are modelled as `Int`; strings as `String`; `undefined`-able
values as `Option`; async remote calls as explicit outcome parameters; the
module-level mutable cache slots as an explicit `CacheState` record threaded
through the functions that read or write them.
-/

namespace Healthbook

/-- The TypeScript `interface YouTubeVideo` of `src/youtube.ts`.  The TypeScript field
`thumbnail` is declared `string`, but the value actually constructed by
`fetchYouTubeVideos` is `high?.url || medium?.url`, which is `undefined`
when neither variant exists; the constructed value is therefore modelled
as `Option String`. -/
structure YouTubeVideo where
  videoId : String
  title : String
  thumbnail : Option String
  publishedAt : String
  durationInSeconds : Int
deriving DecidableEq

/-- The TypeScript `interface ProcessedVideos` of `src/youtube.ts`. -/
structure ProcessedVideos where
  heroVideo : Option YouTubeVideo
  longVideos : List YouTubeVideo
  shorts : List YouTubeVideo
deriving DecidableEq

/-- The module-level mutable slots `cachedVideos` / `lastFetchTime` of
`src/youtube.ts` (lines 23-24), threaded explicitly. -/
structure CacheState where
  cachedVideos : Option ProcessedVideos
  lastFetchTime : Int
deriving DecidableEq

/-- Constant `CACHE_TTL = 5 * 60 * 1000` (milliseconds). -/
def CACHE_TTL : Int := 5 * 60 * 1000

/-- Function `getCachedVideos` (`src/youtube.ts` lines 33-43), with `Date.now()`
passed in as `now`. -/
def getCachedVideos (now : Int) (st : CacheState) : Option ProcessedVideos :=
  match st.cachedVideos with
  | none => none
  | some v => if now - st.lastFetchTime > CACHE_TTL then none else some v

/-- Function `setCachedVideos` (`src/youtube.ts` lines 45-49): overwrites the slot and
resets `lastFetchTime` to `Date.now()` (passed in as `now`). -/
def setCachedVideos (now : Int) (videos : ProcessedVideos) : CacheState :=
  { cachedVideos := some videos, lastFetchTime := now }

/-- Numeric value of a digit run, as produced by `parseInt(_, 10)`:
`'0'` has code 48. -/
def digitsVal (ds : List Char) : Int :=
  ds.foldl (fun a c => a * 10 + ((c.toNat : Int) - 48)) 0

/-- One optional component `(?:(\d+)X)?` of the duration regex at the current
position: greedily take the digit run; if it is non-empty and followed by the
marker the component matches and both are consumed, otherwise the component
matches emptily and consumes nothing. -/
def matchComponent (marker : Char) (l : List Char) : Option Int × List Char :=
  let ds := l.takeWhile Char.isDigit
  let rest := l.dropWhile Char.isDigit
  if ds ≠ [] ∧ rest.head? = some marker then
    (some (digitsVal ds), rest.tail)
  else
    (none, l)

/-- Leftmost match of the mandatory literal `PT` of the regex
`/PT(?:(\d+)H)?(?:(\d+)M)?(?:(\d+)S)?/` (an unanchored `String.match` scans
positions left to right); returns the suffix after `PT`, or `none` when the
whole match fails. -/
def findPT : List Char → Option (List Char)
  | 'P' :: 'T' :: rest => some rest
  | _ :: rest => findPT rest
  | [] => none

/-- Function `parseDuration` (`src/youtube.ts` lines 54-67): ISO-8601 `PT#H#M#S` to
seconds; an unmatched pattern yields 0.  The `try`/`catch` wrapper of the
source has no failing operation inside it (regex match and `parseInt` are
total), so the embedding is a total function. -/
def parseDuration (duration : String) : Int :=
  match findPT duration.data with
  | none => 0
  | some rest =>
    let hm := matchComponent 'H' rest
    let mm := matchComponent 'M' hm.2
    let sm := matchComponent 'S' mm.2
    hm.1.getD 0 * 3600 + mm.1.getD 0 * 60 + sm.1.getD 0

/-- Model of `channelHandle.replace("@", "")`: a string-pattern `String.prototype.replace`
replaces only the FIRST occurrence, wherever it is in the string. -/
def removeFirstAt : List Char → List Char
  | [] => []
  | c :: cs => if c = '@' then cs else c :: removeFirstAt cs

/-- The memoization key computed by `resolveChannelHandleToId`
(`src/youtube.ts` line 83): `channelHandle.replace("@", "").toUpperCase()`. -/
def normalizeHandle (channelHandle : String) : String :=
  String.mk ((removeFirstAt channelHandle.data).map Char.toUpper)

/-- The key as the spec words it: strip a LEADING `"@"` if present, uppercase
the remainder (claim C2's reading, for comparison with `normalizeHandle`). -/
def stripLeadingAtKey (channelHandle : String) : String :=
  String.mk ((match channelHandle.data with
    | '@' :: rest => rest
    | l => l).map Char.toUpper)

/-- Removing the first `"@"` occurrence, formulated as everything before the
first `"@"` followed by everything after it. -/
def removeFirstAtSpec (l : List Char) : List Char :=
  l.takeWhile (fun c => c != '@') ++ (l.dropWhile (fun c => c != '@')).tail

/-- Function `resolveChannelHandleToId` (`src/youtube.ts` lines 79-103) with the
memo `channelIdCache` as an association list and the remote search outcome
(`data.items[0].id.channelId`, or `none` when `data.items` is empty or
absent) passed in as `remoteFirstChannelId`. -/
def resolveChannelHandleToId (cache : List (String × String))
    (channelHandle : String) (remoteFirstChannelId : Option String) :
    Except String (String × List (String × String)) :=
  let normalized := normalizeHandle channelHandle
  match cache.lookup normalized with
  | some channelId => .ok (channelId, cache)
  | none =>
    match remoteFirstChannelId with
    | none => .error "Channel handle not found"
    | some channelId => .ok (channelId, (normalized, channelId) :: cache)

/-- JavaScript `a || b` on the two optional thumbnail URL strings: `a` wins
unless it is `undefined` or the falsy empty string. -/
def jsOrString : Option String → Option String → Option String
  | some s, b => if s = "" then b else some s
  | none, b => b

/-- One element of `videosData.items` as used by `fetchYouTubeVideos`
(`src/youtube.ts` lines 142-150): `item.id`, `item.snippet.title`,
`item.snippet.thumbnails.high?.url`, `item.snippet.thumbnails.medium?.url`,
`item.snippet.publishedAt`, `item.contentDetails.duration`. -/
structure RawItem where
  id : String
  title : String
  thumbnailHighUrl : Option String
  thumbnailMediumUrl : Option String
  publishedAt : String
  duration : String
deriving DecidableEq

/-- The per-item mapping of `fetchYouTubeVideos` (`src/youtube.ts`
lines 142-150). -/
def mkVideo (item : RawItem) : YouTubeVideo :=
  { videoId := item.id
    title := item.title
    thumbnail := jsOrString item.thumbnailHighUrl item.thumbnailMediumUrl
    publishedAt := item.publishedAt
    durationInSeconds := parseDuration item.duration }

/-- The sort `videos.sort((a, b) => new Date(b.publishedAt).getTime() - new
Date(a.publishedAt).getTime())` (`src/youtube.ts` lines 153-157): a stable
sort, descending by the timestamp value of `publishedAt`.  `Date` parsing is
abstracted as the function `ts`; a stable sort for a total preorder is
unique, so insertion sort is an exact model. -/
def sortByRecency (ts : String → Int) (videos : List YouTubeVideo) :
    List YouTubeVideo :=
  videos.insertionSort (fun a b => ts b.publishedAt ≤ ts a.publishedAt)

/-- The full sorted video list built by `fetchYouTubeVideos` before
classification. -/
def allVideos (ts : String → Int) (items : List RawItem) : List YouTubeVideo :=
  sortByRecency ts (items.map mkVideo)

/-- The filter `const longVideos = videos.filter((v) => v.durationInSeconds > 60)`
(`src/youtube.ts` line 159), before truncation. -/
def longVideosAll (ts : String → Int) (items : List RawItem) :
    List YouTubeVideo :=
  (allVideos ts items).filter (fun v => 60 < v.durationInSeconds)

/-- The filter `const shorts = videos.filter((v) => v.durationInSeconds <= 60)`
(`src/youtube.ts` line 160), before truncation. -/
def shortsAll (ts : String → Int) (items : List RawItem) :
    List YouTubeVideo :=
  (allVideos ts items).filter (fun v => v.durationInSeconds ≤ 60)

/-- Steps 5-9 of `fetchYouTubeVideos` (`src/youtube.ts` lines 142-170): map,
sort, classify, hero selection, truncation to 3.  The three remote calls and
the handle resolution are abstracted into the fetched payload `items`. -/
def processVideos (ts : String → Int) (items : List RawItem) :
    ProcessedVideos :=
  { heroVideo :=
      match longVideosAll ts items with
      | [] => none
      | v :: _ => some v
    longVideos := (longVideosAll ts items).take 3
    shorts := (shortsAll ts items).take 3 }

/-- Function `fetchYouTubeVideosAuto` (`src/youtube.ts` lines 177-187), with
`Date.now()` as `now` and the outcome of the live `fetchYouTubeVideos` call
as `fetchOutcome`.  The third component records whether the fetcher was
invoked. -/
def fetchYouTubeVideosAuto (now : Int)
    (fetchOutcome : Except String ProcessedVideos) (st : CacheState) :
    Except String ProcessedVideos × CacheState × Bool :=
  match getCachedVideos now st with
  | some cached => (.ok cached, st, false)
  | none =>
    match fetchOutcome with
    | .ok fresh => (.ok fresh, setCachedVideos now fresh, true)
    | .error e => (.error e, st, true)

/-- One tick of the `setInterval` callback of `startYouTubeAutoRefresh`
(`src/youtube.ts` lines 202-209): on success store the fresh result, on
failure catch, log and leave the state alone. -/
def autoRefreshTick (now : Int)
    (fetchOutcome : Except String ProcessedVideos) (st : CacheState) :
    CacheState :=
  match fetchOutcome with
  | .ok fresh => setCachedVideos now fresh
  | .error _ => st

/-- A run of successive auto-refresh ticks, each with its own `Date.now()`
and fetch outcome. -/
def runAutoRefreshTicks
    (ticks : List (Int × Except String ProcessedVideos)) (st : CacheState) :
    CacheState :=
  ticks.foldl (fun s t => autoRefreshTick t.1 t.2 s) st

/-- The possible responses of the `/api/youtube/videos` handler
(`src/index.ts` lines 93-148). -/
inductive HandlerResponse where
  | ok : ProcessedVideos → HandlerResponse
  | missingApiKey : HandlerResponse
  | missingChannelHandle : HandlerResponse
  | invalidApiKey : HandlerResponse
  | serverError : String → HandlerResponse
deriving DecidableEq

/-- Model of JavaScript `String.prototype.trim`: drop whitespace from both
ends. -/
def trimString (s : String) : String :=
  String.mk
    (((s.data.dropWhile Char.isWhitespace).reverse.dropWhile
        Char.isWhitespace).reverse)

/-- The `GET /api/youtube/videos` handler (`src/index.ts` lines 93-148):
trim the two environment values, reject missing or empty ones and a key
shorter than 20 characters, then call `fetchYouTubeVideos` DIRECTLY (line
127) — not `fetchYouTubeVideosAuto` — so the cache state is neither read
nor written on this path.  The third component records whether the fetcher
was invoked. -/
def handleVideosRequest (envApiKey envChannelHandle : Option String)
    (fetchOutcome : Except String ProcessedVideos) (st : CacheState) :
    HandlerResponse × CacheState × Bool :=
  let apiKey := envApiKey.map trimString
  let channelHandle := envChannelHandle.map trimString
  match apiKey with
  | none => (.missingApiKey, st, false)
  | some k =>
    if k = "" then (.missingApiKey, st, false)
    else
      match channelHandle with
      | none => (.missingChannelHandle, st, false)
      | some h =>
        if h = "" then (.missingChannelHandle, st, false)
        else if k.length < 20 then (.invalidApiKey, st, false)
        else
          match fetchOutcome with
          | .ok v => (.ok v, st, true)
          | .error e => (.serverError e, st, true)

end Healthbook

namespace Healthbook

def tsLen : String → Int := fun s => (s.length : Int)

def itemA : RawItem :=
  { id := "a", title := "A", thumbnailHighUrl := some "h", thumbnailMediumUrl := none,
    publishedAt := "1", duration := "PT10S" }
def itemB : RawItem :=
  { id := "b", title := "B", thumbnailHighUrl := none, thumbnailMediumUrl := some "m",
    publishedAt := "22", duration := "PT2M" }

/-- A syntactically plausible API key of length 34 (at least 20). -/
def validApiKey : String := "AIzaSyA123456789012345678901234567"

def sampleVideo : YouTubeVideo :=
  { videoId := "x", title := "T", thumbnail := some "u", publishedAt := "1",
    durationInSeconds := 300 }

/-- A stored aggregation snapshot. -/
def cachedSample : ProcessedVideos :=
  { heroVideo := some sampleVideo, longVideos := [sampleVideo], shorts := [] }

/-- A different snapshot, standing for a later live fetch result. -/
def freshSample : ProcessedVideos :=
  { heroVideo := none, longVideos := [], shorts := [] }

/-- A cache state stored at time 1000 — fresh for any request at 1000. -/
def freshCacheState : CacheState :=
  { cachedVideos := some cachedSample, lastFetchTime := 1000 }

/-- An upload item whose video lasts 10 seconds (a short). -/
def shortItem (n : String) : RawItem :=
  { id := n, title := n, thumbnailHighUrl := some "u",
    thumbnailMediumUrl := none, publishedAt := n, duration := "PT10S" }

/-- Four fetched shorts — one more than the truncation limit of 3. -/
def fourShorts : List RawItem :=
  [shortItem "a", shortItem "b", shortItem "c", shortItem "d"]

/-- An upload item whose snippet carries neither a high nor a medium
thumbnail variant. -/
def noThumbItem : RawItem :=
  { id := "v1", title := "t", thumbnailHighUrl := none,
    thumbnailMediumUrl := none, publishedAt := "p", duration := "PT2M" }

/-- The duration computation of `parseDuration` on the suffix after the
literal `PT`, named so the regex components can be reasoned about one at a
time; `parseDuration` is definitionally `parseTail` after `findPT`. -/
def parseTail (l : List Char) : Int :=
  let hm := matchComponent 'H' l
  let mm := matchComponent 'M' hm.2
  let sm := matchComponent 'S' mm.2
  hm.1.getD 0 * 3600 + mm.1.getD 0 * 60 + sm.1.getD 0

/-- Rendering of one optional duration component: the digit run followed by
its unit marker, or nothing. -/
def componentPart (comp : Option (List Char)) (marker : Char) : List Char :=
  match comp with
  | none => []
  | some ds => ds ++ [marker]

/-- A well-formed ISO-8601 duration string `PT[hH][mM][sS]`, each component
optional and given by its digit run. -/
def renderDuration (oh om os : Option (List Char)) : String :=
  String.mk ('P' :: 'T' ::
    (componentPart oh 'H' ++ componentPart om 'M' ++ componentPart os 'S'))

/-- Numeric value of an optional component, a missing one counting as 0. -/
def componentVal (comp : Option (List Char)) : Int :=
  (comp.map digitsVal).getD 0

/-- A present component is a non-empty run of decimal digits. -/
def DigitRun (comp : Option (List Char)) : Prop :=
  ∀ ds, comp = some ds → ds ≠ [] ∧ ∀ c ∈ ds, c.isDigit = true

example : parseDuration "PT4M13S" = 253 := by decide
example : parseDuration "PT1H" = 3600 := by decide
example : parseDuration "PT0S" = 0 := by decide
example : parseDuration "" = 0 := by decide
example : parseDuration "hello" = 0 := by decide
example : parseDuration "PT2H3M4S" = 7384 := by decide
example : normalizeHandle "@foo" = "FOO" := by decide
example : normalizeHandle "a@b" = "AB" := by decide
example : stripLeadingAtKey "a@b" = "A@B" := by decide

example : (processVideos tsLen [itemA, itemB]).heroVideo = some (mkVideo itemB) := by decide
example : (processVideos tsLen [itemA, itemB]).shorts = [mkVideo itemA] := by decide
example : (processVideos tsLen [itemA, itemB]).longVideos = [mkVideo itemB] := by decide

theorem findPT_PT (r : List Char) : findPT ('P' :: 'T' :: r) = some r := rfl

theorem takeWhile_digit_run (ds : List Char) (hds : ∀ c ∈ ds, c.isDigit = true)
    (c : Char) (hc : c.isDigit = false) (r : List Char) :
    (ds ++ c :: r).takeWhile Char.isDigit = ds ∧
    (ds ++ c :: r).dropWhile Char.isDigit = c :: r := by
  induction ds with
  | nil => simp [List.takeWhile_cons, List.dropWhile_cons, hc]
  | cons d dst ih =>
    have hd : d.isDigit = true := hds d (by simp)
    have h2 := ih (fun x hx => hds x (by simp [hx]))
    simp [List.takeWhile_cons, List.dropWhile_cons, hd, h2.1, h2.2]

theorem matchComponent_hit (m : Char) (ds r : List Char)
    (hds : ∀ c ∈ ds, c.isDigit = true) (hne : ds ≠ []) (hm : m.isDigit = false) :
    matchComponent m (ds ++ m :: r) = (some (digitsVal ds), r) := by
  obtain ⟨h1, h2⟩ := takeWhile_digit_run ds hds m hm r
  simp [matchComponent, h1, h2, hne]

theorem matchComponent_miss (m : Char) (ds : List Char) (c : Char) (r : List Char)
    (hds : ∀ x ∈ ds, x.isDigit = true) (hc : c.isDigit = false) (hne : c ≠ m) :
    matchComponent m (ds ++ c :: r) = (none, ds ++ c :: r) := by
  obtain ⟨h1, h2⟩ := takeWhile_digit_run ds hds c hc r
  simp [matchComponent, h1, h2, hne]

theorem matchComponent_nil (m : Char) : matchComponent m [] = (none, []) := rfl

theorem parseDuration_render (oh om os : Option (List Char))
    (hh : DigitRun oh) (hm : DigitRun om) (hs : DigitRun os) :
    parseDuration (renderDuration oh om os) =
      componentVal oh * 3600 + componentVal om * 60 + componentVal os := by
  have hstr : (renderDuration oh om os).data =
      'P' :: 'T' ::
        (componentPart oh 'H' ++ componentPart om 'M' ++ componentPart os 'S') := rfl
  have hpt : parseDuration (renderDuration oh om os) =
      parseTail (componentPart oh 'H' ++ componentPart om 'M' ++ componentPart os 'S') := by
    simp [parseDuration, parseTail, hstr, findPT_PT]
  rw [hpt]
  cases oh with
  | some dsH =>
    obtain ⟨hneH, hdsH⟩ := hh dsH rfl
    cases om with
    | some dsM =>
      obtain ⟨hneM, hdsM⟩ := hm dsM rfl
      cases os with
      | some dsS =>
        obtain ⟨hneS, hdsS⟩ := hs dsS rfl
        have e1 := matchComponent_hit 'H' dsH (dsM ++ 'M' :: (dsS ++ 'S' :: []))
          hdsH hneH (by decide)
        have e2 := matchComponent_hit 'M' dsM (dsS ++ 'S' :: []) hdsM hneM (by decide)
        have e3 := matchComponent_hit 'S' dsS [] hdsS hneS (by decide)
        simp [parseTail, componentPart, componentVal, List.append_assoc, e1, e2, e3]
      | none =>
        have e1 := matchComponent_hit 'H' dsH (dsM ++ 'M' :: []) hdsH hneH (by decide)
        have e2 := matchComponent_hit 'M' dsM [] hdsM hneM (by decide)
        simp [parseTail, componentPart, componentVal, List.append_assoc, e1, e2,
          matchComponent_nil]
    | none =>
      cases os with
      | some dsS =>
        obtain ⟨hneS, hdsS⟩ := hs dsS rfl
        have e1 := matchComponent_hit 'H' dsH (dsS ++ 'S' :: []) hdsH hneH (by decide)
        have e2 := matchComponent_miss 'M' dsS 'S' [] hdsS (by decide) (by decide)
        have e3 := matchComponent_hit 'S' dsS [] hdsS hneS (by decide)
        simp [parseTail, componentPart, componentVal, List.append_assoc, e1, e2, e3]
      | none =>
        have e1 := matchComponent_hit 'H' dsH [] hdsH hneH (by decide)
        simp [parseTail, componentPart, componentVal, List.append_assoc, e1,
          matchComponent_nil]
  | none =>
    cases om with
    | some dsM =>
      obtain ⟨hneM, hdsM⟩ := hm dsM rfl
      cases os with
      | some dsS =>
        obtain ⟨hneS, hdsS⟩ := hs dsS rfl
        have e1 := matchComponent_miss 'H' dsM 'M' (dsS ++ 'S' :: [])
          hdsM (by decide) (by decide)
        have e2 := matchComponent_hit 'M' dsM (dsS ++ 'S' :: []) hdsM hneM (by decide)
        have e3 := matchComponent_hit 'S' dsS [] hdsS hneS (by decide)
        simp [parseTail, componentPart, componentVal, List.append_assoc, e1, e2, e3]
      | none =>
        have e1 := matchComponent_miss 'H' dsM 'M' [] hdsM (by decide) (by decide)
        have e2 := matchComponent_hit 'M' dsM [] hdsM hneM (by decide)
        simp [parseTail, componentPart, componentVal, List.append_assoc, e1, e2,
          matchComponent_nil]
    | none =>
      cases os with
      | some dsS =>
        obtain ⟨hneS, hdsS⟩ := hs dsS rfl
        have e1 := matchComponent_miss 'H' dsS 'S' [] hdsS (by decide) (by decide)
        have e2 := matchComponent_miss 'M' dsS 'S' [] hdsS (by decide) (by decide)
        have e3 := matchComponent_hit 'S' dsS [] hdsS hneS (by decide)
        simp [parseTail, componentVal, componentPart, List.append_assoc, e1, e2, e3]
      | none =>
        simp [parseTail, componentVal, componentPart, matchComponent_nil]

theorem char_digit_48 (c : Char) (hc : c.isDigit = true) :
    (48 : Int) ≤ (c.toNat : Int) := by
  simp [Char.isDigit] at hc
  have h : (48 : Nat) ≤ c.toNat := hc.1
  omega

theorem digitsVal_nonneg (ds : List Char) (h : ∀ c ∈ ds, c.isDigit = true) :
    0 ≤ digitsVal ds := by
  suffices H : ∀ a : Int, 0 ≤ a →
      0 ≤ ds.foldl (fun a c => a * 10 + ((c.toNat : Int) - 48)) a from H 0 le_rfl
  induction ds with
  | nil => intro a ha; simpa using ha
  | cons c cs ih =>
    intro a ha
    have hc : c.isDigit = true := h c (by simp)
    have h48 := char_digit_48 c hc
    have hstep : 0 ≤ a * 10 + ((c.toNat : Int) - 48) := by omega
    simpa using ih (fun x hx => h x (by simp [hx])) _ hstep

theorem matchComponent_getD_nonneg (m : Char) (l : List Char) :
    0 ≤ (matchComponent m l).1.getD 0 := by
  simp only [matchComponent]
  split
  · simp only [Option.getD_some]
    exact digitsVal_nonneg _ (fun c hc => List.mem_takeWhile_imp hc)
  · simp

theorem sortByRecency_sorted (ts : String → Int) (l : List YouTubeVideo) :
    (sortByRecency ts l).Pairwise
      (fun a b => ts b.publishedAt ≤ ts a.publishedAt) := by
  haveI : IsTotal YouTubeVideo (fun a b => ts b.publishedAt ≤ ts a.publishedAt) :=
    ⟨fun a b => le_total _ _⟩
  haveI : IsTrans YouTubeVideo (fun a b => ts b.publishedAt ≤ ts a.publishedAt) :=
    ⟨fun _ _ _ h1 h2 => le_trans h2 h1⟩
  exact List.sorted_insertionSort _ l

theorem sortByRecency_perm (ts : String → Int) (l : List YouTubeVideo) :
    List.Perm (sortByRecency ts l) l :=
  List.perm_insertionSort _ l

theorem length_filter_partition (l : List YouTubeVideo) :
    (l.filter (fun v => 60 < v.durationInSeconds)).length +
      (l.filter (fun v => v.durationInSeconds ≤ 60)).length = l.length := by
  induction l with
  | nil => rfl
  | cons v vs ih =>
    by_cases hd : 60 < v.durationInSeconds
    · simp [List.filter_cons, hd, not_le.mpr hd]
      omega
    · simp [List.filter_cons, hd, not_lt.mp hd]
      omega

theorem removeFirstAt_eq_spec (l : List Char) :
    removeFirstAt l = removeFirstAtSpec l := by
  induction l with
  | nil => rfl
  | cons c cs ih =>
    by_cases hc : c = '@'
    · subst hc
      simp [removeFirstAt, removeFirstAtSpec, List.takeWhile_cons,
        List.dropWhile_cons]
    · simp [removeFirstAt, removeFirstAtSpec, List.takeWhile_cons,
        List.dropWhile_cons, hc]
      exact ih

theorem removeFirstAt_of_not_mem (l : List Char) (h : '@' ∉ l) :
    removeFirstAt l = l := by
  induction l with
  | nil => rfl
  | cons c cs ih =>
    have hc : c ≠ '@' := fun e => h (by simp [e])
    simp [removeFirstAt, hc, ih (fun e => h (by simp [e]))]

/-- C2: the claim reads the memoization key as the handle with only a LEADING
`"@"` removed, non-leading `"@"` characters preserved, and handles without a
leading `"@"` mapped to their plain uppercase.  The source computes
`channelHandle.replace("@", "").toUpperCase()`, and a string-pattern
`replace` removes the first `"@"` WHEREVER it occurs: on `"a@b"` the key is
`"AB"`, while the claim requires `"A@B"`. -/
theorem claim_C2_counterexample :
    normalizeHandle "a@b" = "AB" ∧ stripLeadingAtKey "a@b" = "A@B" ∧
    normalizeHandle "a@b" ≠ stripLeadingAtKey "a@b" := by decide

/-- C2 (amended): the memoization key equals the handle with the FIRST `"@"`
occurrence — leading or not — removed and the remainder uppercased; a handle
containing no `"@"` at all maps to exactly its uppercase; and
`resolveChannelHandleToId` depends on the handle only through this key. -/
theorem claim_C2_first_at_removed (handle : String) :
    normalizeHandle handle =
      String.mk ((removeFirstAtSpec handle.data).map Char.toUpper) ∧
    ('@' ∉ handle.data →
      normalizeHandle handle = String.mk (handle.data.map Char.toUpper)) ∧
    (∀ (handle2 : String) (cache : List (String × String))
        (remote : Option String),
      normalizeHandle handle = normalizeHandle handle2 →
      resolveChannelHandleToId cache handle remote =
        resolveChannelHandleToId cache handle2 remote) := by
  refine ⟨?_, ?_, ?_⟩
  · simp [normalizeHandle, removeFirstAt_eq_spec]
  · intro hnm
    simp [normalizeHandle, removeFirstAt_of_not_mem _ hnm]
  · intro handle2 cache remote heq
    simp [resolveChannelHandleToId, heq]

/-- Witness for C2 (amended) at the concrete handles `"a@b"` and `"A@B"`
(same key `"AB"`). -/
theorem claim_C2_first_at_removed_witness :
    normalizeHandle "a@b" =
      String.mk ((removeFirstAtSpec "a@b".data).map Char.toUpper) ∧
    resolveChannelHandleToId [] "a@b" (some "UCx") =
      resolveChannelHandleToId [] "A@B" (some "UCx") :=
  ⟨(claim_C2_first_at_removed "a@b").1,
   (claim_C2_first_at_removed "a@b").2.2 "A@B" [] (some "UCx") (by decide)⟩

/-- C3: on every well-formed ISO-8601 duration `PT[hH][mM][sS]` (components
optional, each a non-empty digit run), `parseDuration` returns
`hours*3600 + minutes*60 + seconds` with missing components counting as 0;
in particular `PT4M13S` gives 253, `PT1H` gives 3600, and `PT0S`, the empty
string, and any input in which the pattern finds no match give 0. -/
theorem claim_C3_parseDuration_wellFormed (oh om os : Option (List Char))
    (hh : DigitRun oh) (hm : DigitRun om) (hs : DigitRun os) :
    parseDuration (renderDuration oh om os) =
      componentVal oh * 3600 + componentVal om * 60 + componentVal os ∧
    parseDuration "PT4M13S" = 253 ∧ parseDuration "PT1H" = 3600 ∧
    parseDuration "PT0S" = 0 ∧ parseDuration "" = 0 ∧
    (∀ s : String, findPT s.data = none → parseDuration s = 0) := by
  refine ⟨parseDuration_render oh om os hh hm hs, by decide, by decide,
    by decide, by decide, ?_⟩
  intro s hfind
  simp [parseDuration, hfind]

/-- Witness for C3 at the concrete duration `PT1H30S` (digit runs `1` and
`30`): 1*3600 + 0*60 + 30. -/
theorem claim_C3_parseDuration_wellFormed_witness :
    parseDuration (renderDuration (some ['1']) none (some ['3', '0'])) =
      componentVal (some ['1']) * 3600 + componentVal none * 60 +
        componentVal (some ['3', '0']) :=
  (claim_C3_parseDuration_wellFormed (some ['1']) none (some ['3', '0'])
    (fun ds hds => by cases hds; exact ⟨by decide, by decide⟩)
    (fun ds hds => by cases hds)
    (fun ds hds => by cases hds; exact ⟨by decide, by decide⟩)).1

/-- C4: `parseDuration` is a total function of the input string (the
`try`/`catch` of the source wraps a body whose operations — regex match and
`parseInt` on digit runs — cannot fault), and its result is a non-negative
integer for every input string. -/
theorem claim_C4_parseDuration_total_nonneg (s : String) :
    0 ≤ parseDuration s := by
  unfold parseDuration
  cases hf : findPT s.data with
  | none => simp
  | some rest =>
    have h1 := matchComponent_getD_nonneg 'H' rest
    have h2 := matchComponent_getD_nonneg 'M' (matchComponent 'H' rest).2
    have h3 := matchComponent_getD_nonneg 'S'
      (matchComponent 'M' (matchComponent 'H' rest).2).2
    simp only []
    omega

/-- C5: `getCachedVideos` returns `none` exactly when nothing is stored or
the elapsed time strictly exceeds the 5-minute TTL, otherwise the stored
snapshot unchanged; after a store at time `t`, a call through
`fetchYouTubeVideosAuto` at `t` + 4min59s serves the stored value without
invoking the fetcher, and a call at `t` + 5min01s invokes the fetcher
again. -/
theorem claim_C5_cache_ttl :
    (∀ (now : Int) (st : CacheState),
      getCachedVideos now st = none ↔
        st.cachedVideos = none ∨ CACHE_TTL < now - st.lastFetchTime) ∧
    (∀ (now : Int) (st : CacheState) (v : ProcessedVideos),
      st.cachedVideos = some v → now - st.lastFetchTime ≤ CACHE_TTL →
      getCachedVideos now st = some v) ∧
    (∀ (t : Int) (v : ProcessedVideos) (fo : Except String ProcessedVideos),
      fetchYouTubeVideosAuto (t + 299000) fo (setCachedVideos t v) =
        (.ok v, setCachedVideos t v, false)) ∧
    (∀ (t : Int) (v fresh : ProcessedVideos),
      fetchYouTubeVideosAuto (t + 301000) (.ok fresh) (setCachedVideos t v) =
        (.ok fresh, setCachedVideos (t + 301000) fresh, true)) := by
  refine ⟨?_, ?_, ?_, ?_⟩
  · intro now st
    cases hcv : st.cachedVideos with
    | none => simp [getCachedVideos, hcv]
    | some v =>
      by_cases hlt : CACHE_TTL < now - st.lastFetchTime
      · simp [getCachedVideos, hcv, hlt]
      · simp [getCachedVideos, hcv, hlt]
  · intro now st v hcv hle
    simp only [getCachedVideos, hcv]
    rw [if_neg (not_lt.mpr hle)]
  · intro t v fo
    norm_num [fetchYouTubeVideosAuto, getCachedVideos, setCachedVideos, CACHE_TTL]
  · intro t v fresh
    norm_num [fetchYouTubeVideosAuto, getCachedVideos, setCachedVideos, CACHE_TTL]

/-- Witness for C5 at a concrete fresh state: stored at 900, read at 1000. -/
theorem claim_C5_cache_ttl_witness :
    getCachedVideos 1000 (CacheState.mk (some (ProcessedVideos.mk none [] [])) 900) =
      some (ProcessedVideos.mk none [] []) :=
  claim_C5_cache_ttl.2.1 1000
    (CacheState.mk (some (ProcessedVideos.mk none [] [])) 900)
    (ProcessedVideos.mk none [] []) rfl (by decide)

/-- C8: a failing tick of the background auto-refresh loop is caught and
leaves the cache slot and `lastFetchTime` untouched, does not affect the
processing of subsequent ticks, and a successful tick unconditionally
stores through `setCachedVideos`. -/
theorem claim_C8_tick_failure_isolated :
    (∀ (now : Int) (e : String) (st : CacheState),
      autoRefreshTick now (.error e) st = st) ∧
    (∀ (now : Int) (e : String)
        (rest : List (Int × Except String ProcessedVideos)) (st : CacheState),
      runAutoRefreshTicks ((now, .error e) :: rest) st =
        runAutoRefreshTicks rest st) ∧
    (∀ (now : Int) (v : ProcessedVideos) (st : CacheState),
      autoRefreshTick now (.ok v) st = setCachedVideos now v) :=
  ⟨fun _ _ _ => rfl, fun _ _ _ _ => rfl, fun _ _ _ => rfl⟩

/-- C9: serving from the cache never extends its freshness — on a cache hit
`fetchYouTubeVideosAuto` returns the stored value and leaves the state
exactly as it was; the state changes only on a miss with a successful
fetch, and then precisely to `setCachedVideos`; a failed fetch on a miss
also leaves the state unchanged. -/
theorem claim_C9_cache_read_frame :
    (∀ (now : Int) (st : CacheState) (c : ProcessedVideos)
        (fo : Except String ProcessedVideos),
      getCachedVideos now st = some c →
      fetchYouTubeVideosAuto now fo st = (.ok c, st, false)) ∧
    (∀ (now : Int) (fresh : ProcessedVideos) (st : CacheState),
      getCachedVideos now st = none →
      fetchYouTubeVideosAuto now (.ok fresh) st =
        (.ok fresh, setCachedVideos now fresh, true)) ∧
    (∀ (now : Int) (e : String) (st : CacheState),
      getCachedVideos now st = none →
      fetchYouTubeVideosAuto now (.error e) st = (.error e, st, true)) := by
  refine ⟨?_, ?_, ?_⟩
  · intro now st c fo h
    simp [fetchYouTubeVideosAuto, h]
  · intro now fresh st h
    simp [fetchYouTubeVideosAuto, h]
  · intro now e st h
    simp [fetchYouTubeVideosAuto, h]

/-- Witness for C9 at a concrete fresh state: repeated hits at 1000 return
the stored value and leave the state word-for-word unchanged. -/
theorem claim_C9_cache_read_frame_witness :
    fetchYouTubeVideosAuto 1000 (.ok (ProcessedVideos.mk none [] []))
        (CacheState.mk (some (ProcessedVideos.mk none [mkVideo itemB] [])) 900) =
      (.ok (ProcessedVideos.mk none [mkVideo itemB] []),
        CacheState.mk (some (ProcessedVideos.mk none [mkVideo itemB] [])) 900,
        false) :=
  claim_C9_cache_read_frame.1 1000
    (CacheState.mk (some (ProcessedVideos.mk none [mkVideo itemB] [])) 900)
    (ProcessedVideos.mk none [mkVideo itemB] [])
    (.ok (ProcessedVideos.mk none [] [])) (by decide)

/-- C1: the claim says the request handler serves through the Cache &
Auto-Refresh Controller — on a fresh cached value the stored result comes
back and the Video Fetcher is not invoked.  At this concrete input the
cache holds a fresh value, yet the handler invokes the fetcher (flag
`true`) and answers with the live result, not the stored one: line 127 of
`src/index.ts` calls `fetchYouTubeVideos` directly, never
`fetchYouTubeVideosAuto`. -/
theorem claim_C1_counterexample :
    getCachedVideos 1000 freshCacheState = some cachedSample ∧
    handleVideosRequest (some validApiKey) (some "HEALTHBOOK.OFFICIAL")
        (.ok freshSample) freshCacheState =
      (.ok freshSample, freshCacheState, true) ∧
    freshSample ≠ cachedSample := by decide

/-- C1 (amended): on every request with valid configuration (key and handle
present and non-empty after trimming, key at least 20 characters) the
handler performs a live fetch unconditionally — the fetcher is invoked, the
fetch outcome is what is served, and the cache state is neither read nor
written on the request path. -/
theorem claim_C1_handler_always_fetches (k ch : String)
    (fo : Except String ProcessedVideos) (st : CacheState)
    (hk : trimString k ≠ "") (hlen : ¬ (trimString k).length < 20)
    (hch : trimString ch ≠ "") :
    handleVideosRequest (some k) (some ch) fo st =
      ((match fo with
        | .ok v => HandlerResponse.ok v
        | .error e => HandlerResponse.serverError e), st, true) := by
  cases fo with
  | ok v => simp [handleVideosRequest, hk, hch, hlen]
  | error e => simp [handleVideosRequest, hk, hch, hlen]

/-- Witness for C1 (amended) at a concrete valid configuration and the
empty initial cache. -/
theorem claim_C1_handler_always_fetches_witness :
    handleVideosRequest (some validApiKey) (some "HEALTHBOOK.OFFICIAL")
        (.ok freshSample) (CacheState.mk none 0) =
      (HandlerResponse.ok freshSample, CacheState.mk none 0, true) :=
  claim_C1_handler_always_fetches validApiKey "HEALTHBOOK.OFFICIAL"
    (.ok freshSample) (CacheState.mk none 0) (by decide) (by decide) (by decide)

/-- C6: the claim says the shorts and long-videos lists of the returned
`ProcessedVideos` partition the full fetched set with no omission.  With
four fetched shorts the returned lists are truncated to 3, so the fourth
fetched video is in neither returned list. -/
theorem claim_C6_counterexample :
    mkVideo (shortItem "d") ∈ fourShorts.map mkVideo ∧
    (mkVideo (shortItem "d")).durationInSeconds ≤ 60 ∧
    mkVideo (shortItem "d") ∉ (processVideos (fun _ => 0) fourShorts).shorts ∧
    mkVideo (shortItem "d") ∉
      (processVideos (fun _ => 0) fourShorts).longVideos := by decide

/-- C6 (amended): every video in the returned shorts list has duration at
most 60 and every video in the returned long-videos list has duration
strictly over 60; the PRE-TRUNCATION classifications partition the full
fetched set with no overlap and no omission; and the returned lists are the
first three elements of those classifications. -/
theorem claim_C6_classification (ts : String → Int) (items : List RawItem) :
    (∀ v ∈ (processVideos ts items).shorts, v.durationInSeconds ≤ 60) ∧
    (∀ v ∈ (processVideos ts items).longVideos, 60 < v.durationInSeconds) ∧
    (∀ v : YouTubeVideo,
      (v ∈ longVideosAll ts items ∨ v ∈ shortsAll ts items) ↔
        v ∈ items.map mkVideo) ∧
    (∀ v : YouTubeVideo,
      ¬(v ∈ longVideosAll ts items ∧ v ∈ shortsAll ts items)) ∧
    (longVideosAll ts items).length + (shortsAll ts items).length =
      items.length ∧
    (processVideos ts items).longVideos = (longVideosAll ts items).take 3 ∧
    (processVideos ts items).shorts = (shortsAll ts items).take 3 := by
  have hperm := sortByRecency_perm ts (items.map mkVideo)
  refine ⟨?_, ?_, ?_, ?_, ?_, rfl, rfl⟩
  · intro v hv
    have hm := List.mem_filter.mp (List.take_subset 3 _ hv)
    simpa using hm.2
  · intro v hv
    have hm := List.mem_filter.mp (List.take_subset 3 _ hv)
    simpa using hm.2
  · intro v
    constructor
    · rintro (h | h)
      · exact hperm.mem_iff.mp (List.mem_filter.mp h).1
      · exact hperm.mem_iff.mp (List.mem_filter.mp h).1
    · intro h
      have hv : v ∈ allVideos ts items := hperm.mem_iff.mpr h
      by_cases hd : 60 < v.durationInSeconds
      · exact Or.inl (List.mem_filter.mpr ⟨hv, by simpa using hd⟩)
      · exact Or.inr (List.mem_filter.mpr ⟨hv, by simpa using not_lt.mp hd⟩)
  · rintro v ⟨h1, h2⟩
    have d1 := (List.mem_filter.mp h1).2
    have d2 := (List.mem_filter.mp h2).2
    simp at d1 d2
    omega
  · calc (longVideosAll ts items).length + (shortsAll ts items).length
        = (allVideos ts items).length := length_filter_partition _
      _ = (items.map mkVideo).length := hperm.length_eq
      _ = items.length := by simp

/-- Witness for C6 (amended) at the two-item input: the stored short indeed
has a duration of at most 60 seconds. -/
theorem claim_C6_classification_witness :
    (mkVideo itemA).durationInSeconds ≤ 60 :=
  (claim_C6_classification tsLen [itemA, itemB]).1 (mkVideo itemA) (by decide)

/-- C7: the hero video equals the first element of the long-videos list
when that list is non-empty, is `none` when there are zero long videos,
and, when present, belongs to the long classification and is at least as
recent as every long video. -/
theorem claim_C7_hero_selection (ts : String → Int) (items : List RawItem) :
    ((processVideos ts items).longVideos = [] →
      (processVideos ts items).heroVideo = none) ∧
    ((processVideos ts items).longVideos ≠ [] →
      (processVideos ts items).heroVideo =
        (processVideos ts items).longVideos.head?) ∧
    (∀ h, (processVideos ts items).heroVideo = some h →
      h ∈ longVideosAll ts items ∧
      ∀ w ∈ longVideosAll ts items,
        ts w.publishedAt ≤ ts h.publishedAt) := by
  have hpw : (longVideosAll ts items).Pairwise
      (fun a b => ts b.publishedAt ≤ ts a.publishedAt) :=
    List.Pairwise.filter _ (sortByRecency_sorted ts (items.map mkVideo))
  cases hL : longVideosAll ts items with
  | nil =>
    refine ⟨fun _ => ?_, fun hne => ?_, fun h hh => ?_⟩
    · simp [processVideos, hL]
    · exact absurd (by simp [processVideos, hL]) hne
    · simp [processVideos, hL] at hh
  | cons v rest =>
    rw [hL] at hpw
    refine ⟨fun he => ?_, fun _ => ?_, fun h hh => ?_⟩
    · simp [processVideos, hL] at he
    · simp [processVideos, hL]
    · have hv : h = v := by
        simp [processVideos, hL] at hh
        exact hh.symm
      subst hv
      refine ⟨by simp, ?_⟩
      intro w hw
      rcases List.mem_cons.mp hw with rfl | hw'
      · exact le_refl _
      · exact (List.pairwise_cons.mp hpw).1 w hw'

/-- Witness for C7 at a single-short input: there is no long video, so the
hero is `none`. -/
theorem claim_C7_hero_selection_witness :
    (processVideos tsLen [itemA]).heroVideo = none :=
  (claim_C7_hero_selection tsLen [itemA]).1 (by decide)

/-- C10: for a remote item with neither a high nor a medium thumbnail
variant, the constructed record's `thumbnail` is `undefined` (`none` in the
embedding) rather than a string, even when the video reaches the returned
snapshot as the hero — the declared `thumbnail: string` promise fails on
such payloads. -/
theorem claim_C10_thumbnail_undefined :
    (mkVideo noThumbItem).thumbnail = none ∧
    ((processVideos (fun _ => 0) [noThumbItem]).heroVideo).map
        YouTubeVideo.thumbnail = some none := by decide

end Healthbook
